import Mathlib

/-!
Shallow embedding of the odin-ai repository (VAE research toolkit) and
verification of claims about `FactorVAE`, `DenseDistribution`,
`parse_distribution`, `fast_tsne` and `ImageDataset`.

Tensors are modelled elementwise over `ℚ`; machine floats such as the
literal `1e-6` are represented by the exact rational they denote in the
source text, since the claims verified here concern clipping, control
flow and bookkeeping, not rounding.
-/

namespace OdinAI

/- ====================================================================
   odin/fuel/_image_base.py : ImageDataset.normalize_255
   ==================================================================== -/

/-- Model of `tf.clip_by_value(t, lo, hi)` on one element:
clamp `t` into the interval `[lo, hi]`. -/
def clip_by_value (t lo hi : ℚ) : ℚ := min (max t lo) hi

/-- Model of `ImageDataset.normalize_255`
(`tf.clip_by_value(image / 255., 1e-6, 1. - 1e-6)`), elementwise over
the image tensor which is modelled as the flat list of its elements. -/
def normalize_255 (image : List ℚ) : List ℚ :=
  image.map (fun x => clip_by_value (x / 255) (1 / 1000000) (1 - 1 / 1000000))

/- ====================================================================
   odin/bay/distribution_alias.py
   ==================================================================== -/

/-- The distribution-layer classes named in `_dist_mapping`
(`odin.bay.distribution_layers`; only their identities matter here). -/
inductive DistLayerCls
  | BernoulliLayer
  | ZeroInflatedBernoulliLayer
  | NormalLayer
  | LogNormalLayer
  | NegativeBinomialLayer
  | ZeroInflatedNegativeBinomialLayer
  | PoissonLayer
  | ZeroInflatedPoissonLayer
  | DirichletLayer
  | OneHotCategoricalLayer
  deriving DecidableEq, Repr

/-- The `tensorflow_probability` distribution classes named in
`_dist_mapping` (only their identities matter here). -/
inductive TfpDistCls
  | Bernoulli
  | Normal
  | LogNormal
  | NegativeBinomial
  | Poisson
  | Dirichlet
  | OneHotCategorical
  deriving DecidableEq, Repr

/-- Model of Python `str.lower()` (ASCII-wise per-character lowercasing,
which is all the alias strings of this module use). -/
def pyLower (s : String) : String := ⟨s.data.map Char.toLower⟩

/-- Modelled from the spec: `odin.utils.python_utils.multikeysdict` is not
under `src/`; a dict literal whose tuple keys register every alias in the
tuple to the same value.  `_dist_mapping` is therefore modelled as the
association list obtained by expanding each tuple key of the literal in
`distribution_alias.py` into one entry per alias, in source order. -/
def dist_mapping : List (String × DistLayerCls × TfpDistCls) :=
  [ ("bern", .BernoulliLayer, .Bernoulli),
    ("bernoulli", .BernoulliLayer, .Bernoulli),
    ("zibernoulli", .ZeroInflatedBernoulliLayer, .Bernoulli),
    ("zeroinflatedbernoulli", .ZeroInflatedBernoulliLayer, .Bernoulli),
    ("normal", .NormalLayer, .Normal),
    ("gaussian", .NormalLayer, .Normal),
    ("lognormal", .LogNormalLayer, .LogNormal),
    ("nb", .NegativeBinomialLayer, .NegativeBinomial),
    ("negativebinomial", .NegativeBinomialLayer, .NegativeBinomial),
    ("zinb", .ZeroInflatedNegativeBinomialLayer, .NegativeBinomial),
    ("zinegativebinomial", .ZeroInflatedNegativeBinomialLayer, .NegativeBinomial),
    ("zeroinflatednegativebinomial", .ZeroInflatedNegativeBinomialLayer, .NegativeBinomial),
    ("pois", .PoissonLayer, .Poisson),
    ("poisson", .PoissonLayer, .Poisson),
    ("zipois", .ZeroInflatedPoissonLayer, .Poisson),
    ("zipoisson", .ZeroInflatedPoissonLayer, .Poisson),
    ("zeroinflatedpoisson", .ZeroInflatedPoissonLayer, .Poisson),
    ("dirichlet", .DirichletLayer, .Dirichlet),
    ("onehot", .OneHotCategoricalLayer, .OneHotCategorical) ]

/-- First-match association lookup, the model of Python dict indexing on
the expanded alias map (alias keys are pairwise distinct). -/
def alookup (k : String) : List (String × DistLayerCls × TfpDistCls) →
    Option (DistLayerCls × TfpDistCls)
  | [] => none
  | (k', v) :: rest => if k = k' then some v else alookup k rest

/-- Payload of the `ValueError` raised by `parse_distribution`: the
message names the unknown alias and lists all available aliases
(`_dist_mapping.keys()`). -/
structure UnknownAliasError where
  aliasName : String
  available : List String
  deriving DecidableEq, Repr

/-- Model of `parse_distribution`: lowercase the argument, raise
`ValueError` when it is not a registered alias, otherwise return the
`(distribution-layer class, distribution class)` pair. -/
def parse_distribution (aliasStr : String) :
    Except UnknownAliasError (DistLayerCls × TfpDistCls) :=
  let a := pyLower aliasStr
  match alookup a dist_mapping with
  | some p => .ok p
  | none => .error ⟨a, dist_mapping.map Prod.fst⟩

/- ====================================================================
   odin/ml/fast_tsne.py
   ==================================================================== -/

/-- Python exceptions raised by the modelled code paths
(`invalidArgumentError` stands for `tf.errors.InvalidArgumentError`). -/
inductive PyExn
  | assertionError
  | valueError
  | runtimeError
  | nameError (n : String)
  | invalidArgumentError
  deriving DecidableEq, Repr

/-- A numpy 2-D array, modelled as its list of rows (`R` the row type). -/
structure NdArray (R : Type) where
  rows : List R
  deriving DecidableEq, Repr

/-- An element of the `*X` argument of `fast_tsne`: either a numpy array
or any other Python object. -/
inductive PyObj (R : Type)
  | arr (a : NdArray R)
  | other
  deriving DecidableEq, Repr

/-- Projection used to model `isinstance(x, np.ndarray)`. -/
def getArr {R : Type} : PyObj R → Option (NdArray R)
  | .arr a => some a
  | .other => none

/-- Model of the downsampling body of `fast_tsne`: when the array has
more than `n` rows, keep the rows indexed by the first `n` entries of
the seeded random permutation `perm` of `range(len(rows))`
(`ids = rand.permutation(x.shape[0])[:n_samples]; x = x[ids]`),
otherwise pass the array through unchanged. -/
def downsample {R : Type} [Inhabited R] (perm : ℕ → List ℕ) (n : ℕ)
    (x : NdArray R) : NdArray R :=
  if n < x.rows.length then
    ⟨((perm x.rows.length).take n).map (fun i => x.rows.getD i default)⟩
  else x

/-- Model of the input-validation and downsampling phase of `fast_tsne`:
`assert len(X) > 0`, then `ValueError` unless every element of `X` is a
numpy array, then (when `n_samples` is given) `assert n_samples > 0` and
downsample each array. -/
def fast_tsne_prepare {R : Type} [Inhabited R] (perm : ℕ → List ℕ)
    (nSamples : Option ℕ) (X : List (PyObj R)) :
    Except PyExn (List (NdArray R)) :=
  if X.length = 0 then .error .assertionError
  else if X.all (fun o => (getArr o).isSome) then
    let arrs := X.filterMap getArr
    match nSamples with
    | none => .ok arrs
    | some n =>
      if 0 < n then .ok (arrs.map (downsample perm n))
      else .error .assertionError
  else .error .valueError

/-- Model of a Python dict as an association list in insertion order
(keys pairwise distinct by construction of the modelled dicts). -/
def eraseKey {V : Type} (k : String) : List (String × V) → List (String × V)
  | [] => []
  | q :: rest => if q.1 = k then rest else q :: eraseKey k rest

/-- Python dict item assignment `d[k] = v`: replace the value of an
existing key in place, otherwise append the new key at the end. -/
def pySetItem {V : Type} (k : String) (v : V) :
    List (String × V) → List (String × V)
  | [] => [(k, v)]
  | q :: rest => if q.1 = k then (k, v) :: rest else q :: pySetItem k v rest

/-- Stable insertion into a list sorted by key string. -/
def insertSortedByKey {V : Type} (p : String × V) :
    List (String × V) → List (String × V)
  | [] => [p]
  | q :: rest =>
    if p.1 ≤ q.1 then p :: q :: rest else q :: insertSortedByKey p rest

/-- Model of Python `sorted(items, key=lambda x: x[0])`. -/
def sortByKey {V : Type} : List (String × V) → List (String × V)
  | [] => []
  | p :: rest => insertSortedByKey p (sortByKey rest)

/-- A cache key of `fast_tsne`: the backend name together with the
key-sorted item list rendered by `str(...)` (two keys are equal exactly
when these data are equal, so the string rendering is kept abstract). -/
abbrev CacheKey (V : Type) := String × List (String × V)

/-- Model of `_create_key(framework, kwargs, md5)`:
copy `kwargs`, delete the `verbose` entry, add the `md5` entry, and pair
the backend name with the key-sorted items. -/
def _create_key {V : Type} (framework : String) (kwargs : List (String × V))
    (md5 : V) : CacheKey V :=
  (framework, sortByKey (pySetItem "md5" md5 (eraseKey "verbose" kwargs)))

/-- Lookup in the global `_cached_values` dict. -/
def cacheLookup {V E : Type} [DecidableEq V] (key : CacheKey V) :
    List (CacheKey V × E) → Option E
  | [] => none
  | (k, e) :: rest => if k = key then some e else cacheLookup key rest

/-- Model of the cached embedding path of `fast_tsne` for a combined
single input array: compute the md5 checksum and cache key, return the
cached embedding when the key is present, otherwise fit t-SNE
(`fit : D → E`) and store the embedding under the same key. -/
def fast_tsne_cached {V E D : Type} [DecidableEq V] (fit : D → E)
    (framework : String) (kwargs : List (String × V)) (md5c : D → V)
    (x : D) (cache : List (CacheKey V × E)) : E × List (CacheKey V × E) :=
  let md5 := md5c x
  let key := _create_key framework kwargs md5
  match cacheLookup key cache with
  | some e => (e, cache)
  | none => (fit x, (key, fit x) :: cache)

/- ====================================================================
   odin/bay/vi/autoencoder/factor_vae.py
   ==================================================================== -/

/-- A trainable Keras variable, identified by its Python object id
(`id(p)` is what `FactorVAE.__init__` uses to split the parameters). -/
structure KVar where
  oid : ℕ
  deriving DecidableEq, Repr

/-- Model of the parameter split at the end of `FactorVAE.__init__`:
`disc_params = discriminator.trainable_variables` and
`vae_params = [p for p in self.trainable_variables if id(p) not in
set(id(p) for p in disc_params)]`.  Returns `(disc_params, vae_params)`. -/
def factorVAE_init_params (modelTrainables discTrainables : List KVar) :
    List KVar × List KVar :=
  let disc_params := discTrainables
  let exclude := disc_params.map KVar.oid
  (disc_params, modelTrainables.filter (fun p => decide (p.oid ∉ exclude)))

/-- Model of the FactorVAE attributes read by `total_correlation`,
`dtc_loss` and `_elbo`.  The discriminator network
(`FactorDiscriminator`, `odin.bay.vi.autoencoder.networks`) is not under
src/, so its `total_correlation` and `dtc_loss` outputs enter as the
abstract functions stored here (`Q` is the type of posteriors `qZ_X`,
the training flag is `Option Bool` for Python's `None`/`True`/`False`). -/
structure FactorVAEModel (Q : Type) where
  gamma : ℚ
  disc_total_correlation : Q → Option Bool → ℚ
  disc_dtc_loss : Q → Option Q → Option Bool → ℚ

/-- Model of `FactorVAE.total_correlation`: the discriminator's estimate
of the total correlation of `qZ_X`, multiplied by `gamma` exactly when
`scaled_by_gamma`. -/
def FactorVAE.total_correlation {Q : Type} (m : FactorVAEModel Q) (qZ_X : Q)
    (scaled_by_gamma : Bool) (training : Option Bool) : ℚ :=
  let tc := m.disc_total_correlation qZ_X training
  if scaled_by_gamma then m.gamma * tc else tc

/-- Model of `FactorVAE._elbo`: call the parent `BetaVAE._elbo`
(not under src/, abstract here as `superElbo`, returning the
log-likelihood and the divergence dict) and add the entry
`div['tc'] = self.total_correlation(qZ_X, training=training)` (which
uses the default `scaled_by_gamma=True`). -/
def FactorVAE._elbo {Q X P L S : Type} (m : FactorVAEModel Q)
    (superElbo : X → P → Q → Bool → Bool → S → L × List (String × ℚ))
    (Xv : X) (pX_Z : P) (qZ_X : Q) (analytic reverse : Bool)
    (sample_shape : S) (training : Option Bool) :
    L × List (String × ℚ) :=
  let r := superElbo Xv pX_Z qZ_X analytic reverse sample_shape
  (r.1, pySetItem "tc" (FactorVAE.total_correlation m qZ_X true training) r.2)

/-- Python dict read `d[k]` (as an `Option`, for stating theorems about
the divergence dict). -/
def pyGet {V : Type} (k : String) : List (String × V) → Option V
  | [] => none
  | q :: rest => if q.1 = k then some q.2 else pyGet k rest

/-- The kind of a step yielded by `FactorVAE.train_steps`. -/
inductive StepKind
  | trainStep
  | factorStep
  deriving DecidableEq, Repr

/-- The `inputs` stored in a yielded step: the VAE step holds the first
minibatch half; the discriminator step holds `[x2, step1.qZ_X]`. -/
inductive StepInputs (T Q : Type)
  | single (x : T)
  | withPosterior (x : T) (q : Q)
  deriving DecidableEq, Repr

/-- Modelled from the spec: the `TrainStep` base class
(`odin.bay.vi.autoencoder.variational_autoencoder`) is not under src/;
per the spec it is a record of the constructor arguments of
`train_steps` (inputs, training flag, sample shape, the parameter list
its optimizer updates), and `step1.qZ_X` is the posterior obtained from
encoding the step's inputs when the caller runs the step. -/
structure TrainStepRec (T Q V : Type) where
  kind : StepKind
  inputs : StepInputs T Q
  training : Option Bool
  sample_shape : List ℕ
  parameters : List V
  deriving DecidableEq, Repr

/-- The model state read and written by `FactorVAE.train_steps`: the
step counter and the two parameter lists split in `__init__`. -/
structure FactorVAETrainState (V : Type) where
  step : ℚ
  vae_params : List V
  disc_params : List V
  deriving DecidableEq, Repr

/-- Model of `tf.split(inputs, 2, axis=0)`: the two halves of the
leading axis; `tf.errors.InvalidArgumentError` when the leading
dimension is not divisible by 2. -/
def tf_split2 {T : Type} (l : List T) : Except PyExn (List T × List T) :=
  if 2 ∣ l.length then .ok (l.take (l.length / 2), l.drop (l.length / 2))
  else .error .invalidArgumentError

/-- Model of `FactorVAE.train_steps` on a tensor input (a minibatch,
modelled as the list of its rows): increment the step counter, split the
minibatch into two halves along axis 0, and yield a `TrainStep` over
`vae_params` on the first half followed by a `FactorStep` over
`disc_params` on the second half paired with the first step's posterior.
`encode` abstracts the VAE encoder producing `step1.qZ_X`. -/
def FactorVAE.train_steps {T Q V : Type} (encode : List T → Q)
    (st : FactorVAETrainState V) (inputs : List T) (training : Option Bool)
    (sample_shape : List ℕ) :
    FactorVAETrainState V × Except PyExn (List (TrainStepRec (List T) Q V)) :=
  let st' := { st with step := st.step + 1 }
  match tf_split2 inputs with
  | .error e => (st', .error e)
  | .ok (x1, x2) =>
    (st', .ok
      [ { kind := .trainStep, inputs := .single x1, training := training,
          sample_shape := sample_shape, parameters := st.vae_params },
        { kind := .factorStep, inputs := .withPosterior x2 (encode x1),
          training := training, sample_shape := sample_shape,
          parameters := st.disc_params } ])

/-- The local names bound in the body of `FactorStep.__call__` by the
time the arguments of the `dtc_loss` call are evaluated. -/
def factorStepCallLocals : List String :=
  ["self", "inputs", "qZ_X", "qZ_Xprime"]

/-- The module-level names of `factor_vae.py`: its imports and the
classes it defines. -/
def factorVaeGlobals : List String :=
  ["Optional", "np", "tf", "keras", "BetaVAE", "FactorDiscriminator",
   "TrainStep", "FactorStep", "FactorVAE"]

/-- Python bare-name resolution: locals, then module globals (none of
the builtins carry the names of interest); an unbound name raises
`NameError`. -/
def resolveName (localNames globalNames : List String) (n : String) :
    Except PyExn Unit :=
  if n ∈ localNames ∨ n ∈ globalNames then .ok ()
  else .error (.nameError n)

/-- Model of `FactorStep.__call__`: unpack `inputs, qZ_X = self.inputs`,
encode the inputs into `qZ_Xprime`, then evaluate the arguments of
`self.vae.dtc_loss(qZ_X, qZ_Xprime, training=training)` — the keyword
value is the bare name `training`, resolved against the frame's locals
and the module globals.  The code after the resolution is the loss
return the source would perform (the training value is unreachable and
stands in as `none`). -/
def FactorStep.call {T Q : Type} (encode : T → Q)
    (dtcLoss : Q → Option Q → Option Bool → ℚ) (x : T) (qZ_X : Q) :
    Except PyExn (ℚ × List (String × ℚ)) := do
  let qZ_Xprime := encode x
  let _ ← resolveName factorStepCallLocals factorVaeGlobals "training"
  let l := dtcLoss qZ_X (some qZ_Xprime) none
  return (l, [("dtc", l)])

/- ====================================================================
   odin/bay/layers/dense.py : DenseDistribution
   ==================================================================== -/

/-- State of a `DenseDistribution` layer.  `D` is the distribution type,
`T` the tensor type, `E` the event-shape type.  The fields mirror the
attributes set in `__init__` and `call`: the Dense `units`, the stored
event shape and prior, the projection switch and dropout rate, the Dense
projection `super().call` (`denseApply`), `bk.dropout`
(`dropoutApply`), the posterior construction
`self.posterior_layer(sample_shape)(params)` (`mkPosterior`), and the
distribution recorded by the last `call`. -/
structure DenseDistributionState (D T E : Type) where
  units : ℕ
  event_shape : E
  prior : Option D
  disable_projection : Bool
  dropout : ℚ
  denseApply : T → T
  dropoutApply : T → T
  mkPosterior : T → D
  lastDistribution : Option D

/-- Model of `DenseDistribution.__init__`: the effective event shape may
be overridden by an `event_shape`/`event_size` entry of
`posterior_kwargs`; the layer is then constructed as a Dense layer whose
`units` is `_params_size(self.posterior_layer(), event_shape)`
(`paramsSize`, abstract: the posterior layer classes are not under
src/), and the last distribution starts out absent. -/
def DenseDistribution.init {D T E P : Type} (paramsSize : P → E → ℕ)
    (posteriorCls : P) (event_shape : E) (kwargsEventShape : Option E)
    (prior : Option D) (disable_projection : Bool) (dropout : ℚ)
    (denseApply dropoutApply : T → T) (mkPosterior : T → D) :
    DenseDistributionState D T E :=
  let eshape := kwargsEventShape.getD event_shape
  { units := paramsSize posteriorCls eshape
    event_shape := eshape
    prior := prior
    disable_projection := disable_projection
    dropout := dropout
    denseApply := denseApply
    dropoutApply := dropoutApply
    mkPosterior := mkPosterior
    lastDistribution := none }

/-- The `posterior` property: the distribution parametrized by the last
`call`. -/
def DenseDistribution.posterior {D T E : Type}
    (layer : DenseDistributionState D T E) : Option D :=
  layer.lastDistribution

/-- Model of `prior = self.prior if prior is None else prior` (in
`call`) and `if prior is None: prior = self._prior` (in
`kl_divergence`): the prior actually used. -/
def effectivePrior {D T E : Type} (layer : DenseDistributionState D T E)
    (priorArg : Option D) : Option D :=
  match priorArg with
  | none => layer.prior
  | some p => some p

/-- The `KLdivergence` helper object attached to the returned
distribution: `KLdivergence(posterior, prior=prior, sample_shape=None)`. -/
structure KLdivergenceHelper (D : Type) where
  posterior : D
  prior : Option D
  sample_shape : Option ℕ
  deriving DecidableEq, Repr

/-- What `DenseDistribution.call` returns: the new posterior with the
`KL_divergence` helper and the `prior` attribute assigned onto it. -/
structure DenseCallResult (D : Type) where
  posterior : D
  KL_divergence : KLdivergenceHelper D
  priorAttr : Option D
  deriving DecidableEq, Repr

/-- Model of `DenseDistribution.call`: apply the Dense projection unless
it is skipped (`projection=False` or `disable_projection`), apply
dropout when the rate is positive, build a new posterior distribution
from the resulting parameters, record it as the last distribution, and
return it with the prior (the argument when given, else the stored
prior) and the `KL_divergence` helper attached. -/
def DenseDistribution.call {D T E : Type}
    (layer : DenseDistributionState D T E) (inputs : T)
    (projection : Bool) (priorArg : Option D) :
    DenseDistributionState D T E × DenseCallResult D :=
  let params :=
    if projection && !layer.disable_projection then layer.denseApply inputs
    else inputs
  let params := if 0 < layer.dropout then layer.dropoutApply params else params
  let post := layer.mkPosterior params
  let layer' := { layer with lastDistribution := some post }
  let priorUsed := effectivePrior layer priorArg
  (layer', { posterior := post
             KL_divergence := ⟨post, priorUsed, none⟩
             priorAttr := priorUsed })

/-- A tensor of arbitrary rank as nested lists (scalars at the leaves);
only the leading-axis structure matters for the KL claims. -/
inductive TTensor
  | scalar (x : ℚ)
  | axis (slices : List TTensor)

/-- Model of `tf.expand_dims(t, axis=0)`. -/
def expand_dims0 (t : TTensor) : TTensor := .axis [t]

/-- Model of `tf.tile(t, [n, 1, ..., 1])`: concatenate `n` copies of `t`
along the leading axis. -/
def tile0 (n : ℕ) : TTensor → TTensor
  | .scalar x => .scalar x
  | .axis slices => .axis (List.flatten (List.replicate n slices))

/-- Modelled from the spec: `odin.bay.helpers.kl_divergence` is not
under src/; per the spec it computes the KL divergence analytically in
closed form when `analytic` and otherwise estimates it by Monte Carlo
from `q_sample` posterior samples (the estimate carrying a leading
sample axis).  Both computations stay abstract. -/
structure KLBackend (D : Type) where
  analyticKL : D → D → TTensor
  mcKL : D → D → ℕ → TTensor

/-- The dispatch of `odin.bay.helpers.kl_divergence` between the closed
form and the Monte-Carlo estimate. -/
def helpers_kl_divergence {D : Type} (b : KLBackend D) (q p : D) (analytic : Bool)
    (qSample : ℕ) : TTensor :=
  if analytic then b.analyticKL q p else b.mcKL q p qSample

/-- Model of `DenseDistribution.kl_divergence`: use the stored prior
when none is passed (`assert` failure when there is none either way),
`RuntimeError` when the layer has not been called yet, then compute
`kl_divergence(q=posterior, p=prior, analytic, q_sample=sample_shape)`;
when `analytic`, expand a leading axis of size 1 and tile it
`sample_shape` times when `sample_shape` is a number greater than 1. -/
def DenseDistribution.kl_divergence {D T E : Type} (b : KLBackend D)
    (layer : DenseDistributionState D T E) (priorArg : Option D)
    (analytic : Bool) (sample_shape : ℕ) : Except PyExn TTensor :=
  match effectivePrior layer priorArg with
  | none => .error .assertionError
  | some p =>
    match layer.lastDistribution with
    | none => .error .runtimeError
    | some q =>
      let kd := helpers_kl_divergence b q p analytic sample_shape
      if analytic then
        let kd := expand_dims0 kd
        if 1 < sample_shape then .ok (tile0 sample_shape kd) else .ok kd
      else .ok kd

/- ====================================================================
   Theorems
   ==================================================================== -/

lemma alookup_eq_some_of_mem {k : String} {p : DistLayerCls × TfpDistCls}
    {l : List (String × DistLayerCls × TfpDistCls)}
    (hnd : (l.map Prod.fst).Nodup) (hm : (k, p) ∈ l) : alookup k l = some p := by
  induction l with
  | nil => cases hm
  | cons hd tl ih =>
    obtain ⟨k', v⟩ := hd
    simp only [List.map_cons, List.nodup_cons] at hnd
    rcases List.mem_cons.mp hm with heq | htl
    · obtain ⟨h1, h2⟩ := Prod.mk.injEq .. ▸ heq
      simp [alookup, h1, h2]
    · have hne : k ≠ k' := by
        intro h
        exact hnd.1 (h ▸ List.mem_map_of_mem Prod.fst htl)
      simp [alookup, hne, ih hnd.2 htl]

lemma mem_of_alookup_eq_some {k : String} {p : DistLayerCls × TfpDistCls}
    {l : List (String × DistLayerCls × TfpDistCls)}
    (h : alookup k l = some p) : (k, p) ∈ l := by
  induction l with
  | nil => simp [alookup] at h
  | cons hd tl ih =>
    obtain ⟨k', v⟩ := hd
    by_cases hk : k = k'
    · simp only [alookup, if_pos hk] at h
      subst hk
      exact List.mem_cons.mpr (Or.inl (by simpa using h.symm))
    · simp only [alookup, if_neg hk] at h
      exact List.mem_cons.mpr (Or.inr (ih h))

lemma alookup_eq_none_of_not_mem {k : String}
    {l : List (String × DistLayerCls × TfpDistCls)}
    (h : k ∉ l.map Prod.fst) : alookup k l = none := by
  induction l with
  | nil => rfl
  | cons hd tl ih =>
    obtain ⟨k', v⟩ := hd
    simp only [List.map_cons, List.mem_cons, not_or] at h
    simp [alookup, h.1, ih h.2]

/-- C5: `parse_distribution` lowercases its argument; for every alias
registered in the distribution mapping it returns the corresponding
(distribution-layer class, distribution class) pair, and for every
string whose lowercase form is not registered it raises a `ValueError`
naming the unknown alias and listing all available aliases. -/
theorem parse_distribution_spec :
    (∀ (a : String) (p : DistLayerCls × TfpDistCls),
      parse_distribution a = .ok p ↔ (pyLower a, p) ∈ dist_mapping)
    ∧ (∀ a : String, pyLower a ∉ dist_mapping.map Prod.fst →
      parse_distribution a = .error ⟨pyLower a, dist_mapping.map Prod.fst⟩) := by
  have hnd : (dist_mapping.map Prod.fst).Nodup := by decide
  constructor
  · intro a p
    constructor
    · intro h
      unfold parse_distribution at h
      cases hl : alookup (pyLower a) dist_mapping with
      | none => simp [hl] at h
      | some q =>
        simp only [hl, Except.ok.injEq] at h
        exact h ▸ mem_of_alookup_eq_some hl
    · intro hm
      unfold parse_distribution
      simp [alookup_eq_some_of_mem hnd hm]
  · intro a ha
    unfold parse_distribution
    simp [alookup_eq_none_of_not_mem ha]

/-- Witness for C5: the registered alias `Bernoulli` (uppercase input,
lowercased) parses to the Bernoulli pair, and the unregistered string
`qwerty` raises the error naming it and listing every alias. -/
theorem parse_distribution_spec_witness :
    parse_distribution "Bernoulli" = .ok (.BernoulliLayer, .Bernoulli)
    ∧ parse_distribution "qwerty" =
      .error ⟨"qwerty", dist_mapping.map Prod.fst⟩ := by
  refine ⟨(parse_distribution_spec.1 "Bernoulli" (.BernoulliLayer, .Bernoulli)).mpr (by decide), ?_⟩
  have h := parse_distribution_spec.2 "qwerty" (by decide)
  simpa using h

/-- C9: every element of the tensor returned by
`ImageDataset.normalize_255` lies in the closed interval
`[1e-6, 1 - 1e-6]`. -/
theorem normalize_255_bounds (image : List ℚ) (y : ℚ)
    (hy : y ∈ normalize_255 image) :
    1 / 1000000 ≤ y ∧ y ≤ 1 - 1 / 1000000 := by
  obtain ⟨x, -, rfl⟩ := List.mem_map.mp hy
  unfold clip_by_value
  constructor
  · exact le_min (le_max_right _ _) (by norm_num)
  · exact min_le_right _ _

/-- C7: with `n_samples` a positive integer, `fast_tsne` replaces every
input array with more than `n_samples` rows by exactly `n_samples` of
its rows selected by the seeded random permutation, passes every array
with at most `n_samples` rows through unchanged, and raises `ValueError`
when some element of `X` is not a numpy array. -/
theorem fast_tsne_downsample_spec {R : Type} [Inhabited R]
    (perm : ℕ → List ℕ) (hperm : ∀ m, (perm m).Perm (List.range m))
    (n : ℕ) (hn : 0 < n) :
    (∀ X : List (PyObj R),
      X ≠ [] → X.all (fun o => (getArr o).isSome) = true →
      fast_tsne_prepare perm (some n) X
        = .ok ((X.filterMap getArr).map (downsample perm n)))
    ∧ (∀ x : NdArray R, n < x.rows.length →
        (downsample perm n x).rows.length = n
        ∧ ∀ r ∈ (downsample perm n x).rows, r ∈ x.rows)
    ∧ (∀ x : NdArray R, x.rows.length ≤ n → downsample perm n x = x)
    ∧ (∀ X : List (PyObj R), X ≠ [] →
        (∃ o ∈ X, getArr o = none) →
        fast_tsne_prepare perm (some n) X = .error .valueError) := by
  refine ⟨?_, ?_, ?_, ?_⟩
  · intro X hne hall
    unfold fast_tsne_prepare
    rw [if_neg (by simpa using hne), if_pos hall]
    simp [hn]
  · intro x hx
    have hlen : (perm x.rows.length).length = x.rows.length :=
      (hperm x.rows.length).length_eq.trans (List.length_range _)
    constructor
    · simp only [downsample, if_pos hx, List.length_map, List.length_take, hlen]
      exact Nat.min_eq_left (Nat.le_of_lt hx)
    · intro r hr
      simp only [downsample, if_pos hx, List.mem_map] at hr
      obtain ⟨i, hi, rfl⟩ := hr
      have hmem : i ∈ perm x.rows.length := List.mem_of_mem_take hi
      have hilt : i < x.rows.length := by
        have := ((hperm x.rows.length).mem_iff).mp hmem
        exact List.mem_range.mp this
      rw [List.getD_eq_getElem x.rows default hilt]
      exact List.getElem_mem hilt
  · intro x hx
    simp [downsample, Nat.not_lt.mpr hx]
  · intro X hne ⟨o, ho, hnone⟩
    unfold fast_tsne_prepare
    rw [if_neg (by simpa using hne), if_neg]
    simp only [List.all_eq_true, not_forall]
    exact ⟨o, ho, by simp [hnone]⟩

/-- Witness for C7: a two-row array is downsampled to one row under the
identity permutation, and a non-array input raises `ValueError`. -/
theorem fast_tsne_downsample_spec_witness :
    fast_tsne_prepare (fun m => List.range m) (some 1)
        [PyObj.arr (⟨[10, 20]⟩ : NdArray ℕ)]
      = .ok [⟨[10]⟩]
    ∧ fast_tsne_prepare (fun m => List.range m) (some 1)
        ([PyObj.other] : List (PyObj ℕ))
      = .error .valueError := by
  have h := fast_tsne_downsample_spec (R := ℕ) (fun m => List.range m)
    (fun m => List.Perm.refl _) 1 (by decide)
  refine ⟨?_, h.2.2.2 [PyObj.other] (by simp) ⟨PyObj.other, by simp, rfl⟩⟩
  have h1 := h.1 [PyObj.arr ⟨[10, 20]⟩] (by simp) (by decide)
  rw [h1]
  rfl

lemma eraseKey_pySetItem_same {V : Type} (k : String) (v : V)
    (kw : List (String × V)) :
    eraseKey k (pySetItem k v kw) = eraseKey k kw := by
  induction kw with
  | nil => simp [pySetItem, eraseKey]
  | cons q rest ih =>
    by_cases hq : q.1 = k
    · simp [pySetItem, eraseKey, hq]
    · simp [pySetItem, eraseKey, hq, ih]

/-- C10: the `fast_tsne` cache key excludes `verbose`: two calls with
the same data checksum, backend and keyword arguments that differ only
in `verbose` build the same cache key, so the second call returns the
embedding stored by the first (whatever t-SNE fit the second call would
have run) instead of recomputing. -/
theorem fast_tsne_cache_ignores_verbose {V E D : Type} [DecidableEq V]
    (fw : String) (kw : List (String × V)) (v1 v2 : V) (md5c : D → V)
    (fit1 fit2 : D → E) (x : D) (cache : List (CacheKey V × E))
    (hmiss : cacheLookup (_create_key fw (pySetItem "verbose" v1 kw) (md5c x))
      cache = none) :
    (∀ m : V, _create_key fw (pySetItem "verbose" v1 kw) m
        = _create_key fw (pySetItem "verbose" v2 kw) m)
    ∧ (fast_tsne_cached fit2 fw (pySetItem "verbose" v2 kw) md5c x
        (fast_tsne_cached fit1 fw (pySetItem "verbose" v1 kw) md5c x cache).2).1
      = fit1 x := by
  have hkey : ∀ m : V, _create_key fw (pySetItem "verbose" v1 kw) m
      = _create_key fw (pySetItem "verbose" v2 kw) m := by
    intro m
    unfold _create_key
    rw [eraseKey_pySetItem_same, ← eraseKey_pySetItem_same "verbose" v2 kw]
  refine ⟨hkey, ?_⟩
  simp only [fast_tsne_cached]
  rw [hmiss, ← hkey (md5c x)]
  simp [cacheLookup]

/-- Witness for C10: a first call with `verbose = 0` computes and stores
the embedding `42`; the second call with `verbose = 1` and a different
fit function returns the stored `42`. -/
theorem fast_tsne_cache_ignores_verbose_witness :
    (fast_tsne_cached (fun _ => 7) "sklearn"
      (pySetItem "verbose" 1 [("angle", 5)]) id (3 : ℕ)
      (fast_tsne_cached (fun _ => (42 : ℕ)) "sklearn"
        (pySetItem "verbose" 0 [("angle", 5)]) id 3 []).2).1 = 42 :=
  (fast_tsne_cache_ignores_verbose "sklearn" [("angle", 5)] 0 1 id
    (fun _ => 42) (fun _ => 7) 3 [] rfl).2

/-- Witness for C9: the element produced from pixel value 0 is exactly
the lower clip bound and satisfies both bounds. -/
theorem normalize_255_bounds_witness :
    (1 / 1000000 : ℚ) ∈ normalize_255 [0]
    ∧ (1 / 1000000 ≤ (1 / 1000000 : ℚ)
       ∧ (1 / 1000000 : ℚ) ≤ 1 - 1 / 1000000) :=
  have hm : (1 / 1000000 : ℚ) ∈ normalize_255 [0] := by
    simp [normalize_255, clip_by_value]
    norm_num
  ⟨hm, normalize_255_bounds [0] (1 / 1000000) hm⟩

/-- C6: after `FactorVAE.__init__`, `disc_params` is exactly the
discriminator's trainable variables, `vae_params` is exactly the
remaining trainable variables of the model, and no variable identity
appears in both, so the two sets partition the model's trainable
variables (given that Keras tracks the discriminator sub-layer's
variables among the model's and variables are distinct objects). -/
theorem factorVAE_params_partition
    (modelTrainables discTrainables : List KVar)
    (hsub : ∀ v ∈ discTrainables, v ∈ modelTrainables)
    (hnd : (modelTrainables.map KVar.oid).Nodup) :
    (factorVAE_init_params modelTrainables discTrainables).1 = discTrainables
    ∧ (∀ v ∈ modelTrainables,
        v ∈ (factorVAE_init_params modelTrainables discTrainables).1
        ∨ v ∈ (factorVAE_init_params modelTrainables discTrainables).2)
    ∧ (∀ v, ¬(v ∈ (factorVAE_init_params modelTrainables discTrainables).1
        ∧ v ∈ (factorVAE_init_params modelTrainables discTrainables).2))
    ∧ (∀ v ∈ (factorVAE_init_params modelTrainables discTrainables).2,
        v ∈ modelTrainables ∧ v ∉ discTrainables)
    ∧ (∀ v ∈ modelTrainables, v ∉ discTrainables →
        v ∈ (factorVAE_init_params modelTrainables discTrainables).2) := by
  have hvae : ∀ v, v ∈ (factorVAE_init_params modelTrainables discTrainables).2
      ↔ v ∈ modelTrainables ∧ v.oid ∉ discTrainables.map KVar.oid := by
    intro v
    simp [factorVAE_init_params, List.mem_filter]
  refine ⟨rfl, ?_, ?_, ?_, ?_⟩
  · intro v hv
    by_cases h : v.oid ∈ discTrainables.map KVar.oid
    · obtain ⟨d, hd, hoid⟩ := List.mem_map.mp h
      have hdv : d = v :=
        List.inj_on_of_nodup_map hnd (hsub d hd) hv hoid
      exact Or.inl (hdv ▸ hd)
    · exact Or.inr ((hvae v).mpr ⟨hv, h⟩)
  · rintro v ⟨h1, h2⟩
    exact ((hvae v).mp h2).2 (List.mem_map_of_mem KVar.oid h1)
  · intro v hv
    have h := (hvae v).mp hv
    exact ⟨h.1, fun hd => h.2 (List.mem_map_of_mem KVar.oid hd)⟩
  · intro v hv hvd
    refine (hvae v).mpr ⟨hv, fun h => ?_⟩
    obtain ⟨d, hd, hoid⟩ := List.mem_map.mp h
    exact hvd (List.inj_on_of_nodup_map hnd (hsub d hd) hv hoid ▸ hd)

/-- Witness for C6: a model with variables 1, 2, 3 of which variable 3
belongs to the discriminator; `disc_params` is `[3]` and variable 2
falls into one of the two parameter sets. -/
theorem factorVAE_params_partition_witness :
    (factorVAE_init_params [⟨1⟩, ⟨2⟩, ⟨3⟩] [⟨3⟩]).1 = [⟨3⟩]
    ∧ ((⟨2⟩ : KVar) ∈ (factorVAE_init_params [⟨1⟩, ⟨2⟩, ⟨3⟩] [⟨3⟩]).1
       ∨ (⟨2⟩ : KVar) ∈ (factorVAE_init_params [⟨1⟩, ⟨2⟩, ⟨3⟩] [⟨3⟩]).2) :=
  have h := factorVAE_params_partition [⟨1⟩, ⟨2⟩, ⟨3⟩] [⟨3⟩]
    (by decide) (by decide)
  ⟨h.1, h.2.1 ⟨2⟩ (by decide)⟩

lemma pyGet_pySetItem_same {V : Type} (k : String) (v : V)
    (d : List (String × V)) : pyGet k (pySetItem k v d) = some v := by
  induction d with
  | nil => simp [pySetItem, pyGet]
  | cons q rest ih =>
    by_cases hq : q.1 = k
    · simp [pySetItem, pyGet, hq]
    · simp [pySetItem, pyGet, hq, ih]

lemma pyGet_pySetItem_other {V : Type} (k' k : String) (v : V)
    (d : List (String × V)) (h : k' ≠ k) :
    pyGet k' (pySetItem k v d) = pyGet k' d := by
  induction d with
  | nil => simp [pySetItem, pyGet, Ne.symm h]
  | cons q rest ih =>
    by_cases hq : q.1 = k
    · simp [pySetItem, pyGet, hq, Ne.symm h]
    · simp [pySetItem, pyGet, hq, ih]

/-- C4: `FactorVAE.total_correlation` returns the discriminator's
total-correlation estimate multiplied by `gamma` when
`scaled_by_gamma=True` and unscaled when `scaled_by_gamma=False`, and
`FactorVAE._elbo` extends the parent's divergence dict with a `tc` entry
equal to the gamma-scaled total correlation, keeping the log-likelihood
and every other divergence entry. -/
theorem factorVAE_total_correlation_spec {Q X P L S : Type}
    (m : FactorVAEModel Q)
    (superElbo : X → P → Q → Bool → Bool → S → L × List (String × ℚ)) :
    (∀ (q : Q) (tr : Option Bool),
      FactorVAE.total_correlation m q true tr
        = m.gamma * m.disc_total_correlation q tr)
    ∧ (∀ (q : Q) (tr : Option Bool),
      FactorVAE.total_correlation m q false tr
        = m.disc_total_correlation q tr)
    ∧ (∀ Xv pXZ q a r ss tr,
      (FactorVAE._elbo m superElbo Xv pXZ q a r ss tr).1
        = (superElbo Xv pXZ q a r ss).1)
    ∧ (∀ Xv pXZ q a r ss tr,
      pyGet "tc" (FactorVAE._elbo m superElbo Xv pXZ q a r ss tr).2
        = some (m.gamma * m.disc_total_correlation q tr))
    ∧ (∀ Xv pXZ q a r ss tr k, k ≠ "tc" →
      pyGet k (FactorVAE._elbo m superElbo Xv pXZ q a r ss tr).2
        = pyGet k (superElbo Xv pXZ q a r ss).2) := by
  refine ⟨fun q tr => rfl, fun q tr => rfl, fun _ _ _ _ _ _ _ => rfl, ?_, ?_⟩
  · intro Xv pXZ q a r ss tr
    simp [FactorVAE._elbo, FactorVAE.total_correlation, pyGet_pySetItem_same]
  · intro Xv pXZ q a r ss tr k hk
    simp [FactorVAE._elbo, pyGet_pySetItem_other k "tc" _ _ hk]

/-- Witness for C4: with `gamma = 2` and a discriminator estimate equal
to the latent code, the `tc` entry is the gamma-scaled estimate and the
parent's `kl` entry is preserved. -/
theorem factorVAE_total_correlation_spec_witness :
    pyGet "tc" (FactorVAE._elbo (Q := ℕ) (X := ℕ) (P := ℕ) (L := ℕ) (S := ℕ)
        ⟨2, fun q _ => (q : ℚ), fun _ _ _ => 0⟩
        (fun _ _ _ _ _ _ => (7, [("kl", 5)])) 0 0 3 true true 0 none).2
      = some (2 * 3)
    ∧ pyGet "kl" (FactorVAE._elbo (Q := ℕ) (X := ℕ) (P := ℕ) (L := ℕ) (S := ℕ)
        ⟨2, fun q _ => (q : ℚ), fun _ _ _ => 0⟩
        (fun _ _ _ _ _ _ => (7, [("kl", 5)])) 0 0 3 true true 0 none).2
      = pyGet "kl" [("kl", (5 : ℚ))] :=
  have h := factorVAE_total_correlation_spec (Q := ℕ) (X := ℕ) (P := ℕ)
    (L := ℕ) (S := ℕ) ⟨2, fun q _ => (q : ℚ), fun _ _ _ => 0⟩
    (fun _ _ _ _ _ _ => (7, [("kl", 5)]))
  ⟨h.2.2.2.1 0 0 3 true true 0 none,
   h.2.2.2.2 0 0 3 true true 0 none "kl" (by decide)⟩

/-- C1: `FactorVAE.train_steps` increments the step counter by exactly
1, splits the minibatch into two halves along axis 0, and yields exactly
a `TrainStep` over `vae_params` on the first half followed by a
`FactorStep` over `disc_params` on the second half together with the
first step's posterior `qZ_X`. -/
theorem factorVAE_train_steps_spec {T Q V : Type} (encode : List T → Q)
    (st : FactorVAETrainState V) (inputs : List T) (training : Option Bool)
    (sample_shape : List ℕ) (heven : 2 ∣ inputs.length) :
    (FactorVAE.train_steps encode st inputs training sample_shape).1.step
      = st.step + 1
    ∧ (FactorVAE.train_steps encode st inputs training sample_shape).2
      = .ok
        [ { kind := .trainStep,
            inputs := .single (inputs.take (inputs.length / 2)),
            training := training, sample_shape := sample_shape,
            parameters := st.vae_params },
          { kind := .factorStep,
            inputs := .withPosterior (inputs.drop (inputs.length / 2))
              (encode (inputs.take (inputs.length / 2))),
            training := training, sample_shape := sample_shape,
            parameters := st.disc_params } ]
    ∧ inputs.take (inputs.length / 2) ++ inputs.drop (inputs.length / 2)
      = inputs
    ∧ (inputs.take (inputs.length / 2)).length = inputs.length / 2
    ∧ (inputs.drop (inputs.length / 2)).length = inputs.length / 2 := by
  refine ⟨?_, ?_, List.take_append_drop _ _, ?_, ?_⟩
  · simp [FactorVAE.train_steps, tf_split2, heven]
  · simp [FactorVAE.train_steps, tf_split2, heven]
  · simp [Nat.div_le_self]
  · obtain ⟨c, hc⟩ := heven
    simp [List.length_drop, hc, Nat.mul_div_cancel_left c (by norm_num : 0 < 2)]
    omega

/-- Witness for C1: a four-row minibatch with one VAE parameter and one
discriminator parameter yields the two steps in order and advances the
step counter from 0 to 1. -/
theorem factorVAE_train_steps_spec_witness :
    (FactorVAE.train_steps (fun l => l.length) (⟨0, [1], [2]⟩ :
      FactorVAETrainState ℕ) [5, 6, 7, 8] none []).1.step = 0 + 1
    ∧ (FactorVAE.train_steps (fun l => l.length) (⟨0, [1], [2]⟩ :
      FactorVAETrainState ℕ) [5, 6, 7, 8] none []).2
      = .ok
        [ { kind := .trainStep, inputs := .single [5, 6], training := none,
            sample_shape := [], parameters := [1] },
          { kind := .factorStep, inputs := .withPosterior [7, 8] 2,
            training := none, sample_shape := [], parameters := [2] } ] := by
  have h := factorVAE_train_steps_spec (fun l : List ℕ => l.length)
    ⟨0, [1], [2]⟩ [5, 6, 7, 8] none [] (by decide)
  exact ⟨h.1, by rw [h.2.1]; rfl⟩

/-- C8: every invocation of `FactorStep.__call__` raises a `NameError`
before returning a loss, because the keyword argument
`training=training` of the `dtc_loss` call refers to an unbound name
(the attribute would be `self.training`). -/
theorem factorStep_call_raises_nameError {T Q : Type} (encode : T → Q)
    (dtcLoss : Q → Option Q → Option Bool → ℚ) (x : T) (qZ_X : Q) :
    FactorStep.call encode dtcLoss x qZ_X = .error (.nameError "training") := by
  have h : ¬("training" ∈ factorStepCallLocals
      ∨ "training" ∈ factorVaeGlobals) := by decide
  simp [FactorStep.call, resolveName, h]

/-- C3: the layer is constructed as a Dense layer whose `units` is the
posterior layer class's `params_size` for the given event shape, and a
`call` with projection enabled first applies the Dense projection, then
builds a new posterior from the projected parameters, records it (so the
`posterior` property returns this most recent distribution), and returns
it with the prior and a `KL_divergence` helper attached. -/
theorem denseDistribution_init_call_spec {D T E P : Type}
    (paramsSize : P → E → ℕ) (cls : P) (eshape : E) (prior0 : Option D)
    (dp : Bool) (dr : ℚ) (da dda : T → T) (mk : T → D) :
    (DenseDistribution.init paramsSize cls eshape none prior0 dp dr
      da dda mk).units = paramsSize cls eshape
    ∧ DenseDistribution.posterior (DenseDistribution.init paramsSize cls
      eshape none prior0 dp dr da dda mk) = none
    ∧ (∀ (layer : DenseDistributionState D T E) (inputs : T)
        (priorArg : Option D),
        layer.disable_projection = false → layer.dropout = 0 →
        DenseDistribution.call layer inputs true priorArg
          = ({ layer with
                lastDistribution := some (layer.mkPosterior (layer.denseApply inputs)) },
             { posterior := layer.mkPosterior (layer.denseApply inputs)
               KL_divergence := ⟨layer.mkPosterior (layer.denseApply inputs),
                 effectivePrior layer priorArg, none⟩
               priorAttr := effectivePrior layer priorArg }))
    ∧ (∀ (layer : DenseDistributionState D T E) (inputs : T)
        (priorArg : Option D),
        layer.disable_projection = false → layer.dropout = 0 →
        DenseDistribution.posterior
          (DenseDistribution.call layer inputs true priorArg).1
          = some (layer.mkPosterior (layer.denseApply inputs))) := by
  have hcall : ∀ (layer : DenseDistributionState D T E) (inputs : T)
      (priorArg : Option D),
      layer.disable_projection = false → layer.dropout = 0 →
      DenseDistribution.call layer inputs true priorArg
        = ({ layer with
              lastDistribution := some (layer.mkPosterior (layer.denseApply inputs)) },
           { posterior := layer.mkPosterior (layer.denseApply inputs)
             KL_divergence := ⟨layer.mkPosterior (layer.denseApply inputs),
               effectivePrior layer priorArg, none⟩
             priorAttr := effectivePrior layer priorArg }) := by
    intro layer inputs priorArg hproj hdrop
    simp [DenseDistribution.call, hproj, hdrop]
  refine ⟨rfl, rfl, hcall, ?_⟩
  intro layer inputs priorArg hproj hdrop
  rw [hcall layer inputs priorArg hproj hdrop]
  rfl

/-- Witness for C3: a concrete layer over natural numbers; `units` is
`params_size(cls, event_shape) = 3 + 4`, and a call on input 10 with the
Dense projection `t + 1` and posterior constructor `t * 2` records and
returns the distribution 22 with the stored prior 9 attached. -/
theorem denseDistribution_init_call_spec_witness :
    (DenseDistribution.init (D := ℕ) (T := ℕ) (fun (c e : ℕ) => c + e) 3 4
      none (some 9) false 0 (fun t => t + 1) id (fun t => t * 2)).units
      = 3 + 4
    ∧ (DenseDistribution.call (DenseDistribution.init (D := ℕ) (T := ℕ)
        (fun (c e : ℕ) => c + e) 3 4 none (some 9) false 0 (fun t => t + 1)
        id (fun t => t * 2)) 10 true none).2
      = { posterior := 22, KL_divergence := ⟨22, some 9, none⟩,
          priorAttr := some 9 }
    ∧ DenseDistribution.posterior (DenseDistribution.call
        (DenseDistribution.init (D := ℕ) (T := ℕ) (fun (c e : ℕ) => c + e)
          3 4 none (some 9) false 0 (fun t => t + 1) id (fun t => t * 2))
        10 true none).1 = some 22 :=
  have h := denseDistribution_init_call_spec (D := ℕ) (T := ℕ)
    (fun (c e : ℕ) => c + e) 3 4 (some 9) false 0 (fun t => t + 1) id
    (fun t => t * 2)
  ⟨h.1,
   by rw [h.2.2.1 _ 10 none rfl rfl]; rfl,
   by rw [h.2.2.2 _ 10 none rfl rfl]; rfl⟩

lemma tile0_expand_dims0 (n : ℕ) (t : TTensor) :
    tile0 n (expand_dims0 t) = .axis (List.replicate n t) := by
  simp only [tile0, expand_dims0]
  congr 1
  induction n with
  | zero => simp
  | succ k ih => simp [List.replicate_succ, ih]

/-- C2: given a posterior from a previous call and an available prior,
`DenseDistribution.kl_divergence` with `analytic=True` computes the
closed-form divergence, gives it a leading axis of size 1, and tiles it
to `sample_shape` identical copies along that axis when `sample_shape`
is a number greater than 1; with `analytic=False` it instead returns the
Monte-Carlo estimate from `sample_shape` posterior samples, with no
expand or tile applied. -/
theorem denseDistribution_kl_divergence_spec {D T E : Type}
    (b : KLBackend D) (layer : DenseDistributionState D T E)
    (priorArg : Option D) (q p : D) (n : ℕ)
    (hq : layer.lastDistribution = some q)
    (hp : effectivePrior layer priorArg = some p) :
    (n ≤ 1 → DenseDistribution.kl_divergence b layer priorArg true n
      = .ok (.axis [b.analyticKL q p]))
    ∧ (1 < n → DenseDistribution.kl_divergence b layer priorArg true n
      = .ok (.axis (List.replicate n (b.analyticKL q p))))
    ∧ DenseDistribution.kl_divergence b layer priorArg false n
      = .ok (b.mcKL q p n) := by
  refine ⟨?_, ?_, ?_⟩
  · intro hn
    simp [DenseDistribution.kl_divergence, hp, hq, helpers_kl_divergence,
      Nat.not_lt.mpr hn, expand_dims0]
  · intro hn
    simp [DenseDistribution.kl_divergence, hp, hq, helpers_kl_divergence,
      hn, tile0_expand_dims0]
  · simp [DenseDistribution.kl_divergence, hp, hq, helpers_kl_divergence]

/-- Witness for C2: a concrete layer whose last posterior is 4 and
stored prior is 5, with closed form `q` and a Monte-Carlo estimate carrying a leading axis
of `n` copies of `p`: the analytic divergence with `sample_shape = 3` is
tiled to three copies of 4, and the non-analytic one is the bare
three-sample estimate. -/
theorem denseDistribution_kl_divergence_spec_witness :
    DenseDistribution.kl_divergence (D := ℚ) (T := ℕ) (E := ℕ)
      ⟨fun q _ => .scalar q, fun _ p n => .axis (List.replicate n (.scalar p))⟩
      ⟨0, 0, some 5, false, 0, id, id, fun _ => 0, some 4⟩ none true 3
      = .ok (.axis (List.replicate 3 (.scalar 4)))
    ∧ DenseDistribution.kl_divergence (D := ℚ) (T := ℕ) (E := ℕ)
      ⟨fun q _ => .scalar q, fun _ p n => .axis (List.replicate n (.scalar p))⟩
      ⟨0, 0, some 5, false, 0, id, id, fun _ => 0, some 4⟩ none false 3
      = .ok (.axis (List.replicate 3 (.scalar 5))) :=
  have h := denseDistribution_kl_divergence_spec (D := ℚ) (T := ℕ) (E := ℕ)
    ⟨fun q _ => .scalar q, fun _ p n => .axis (List.replicate n (.scalar p))⟩
    ⟨0, 0, some 5, false, 0, id, id, fun _ => 0, some 4⟩ none 4 5 3 rfl rfl
  ⟨by rw [h.2.1 (by norm_num)], by rw [h.2.2]⟩

end OdinAI
